import Mathlib

/-!
# Verification of the pdf2csv front end's job-tracking core

A shallow embedding of the repository's job-tracking logic:

* the Local Job Store over browser local storage (`getStoredJob`,
  `updateStoredJob`, `getAllStoredJobs`, `cleanupStoredJobs`, and the
  store-side effect of `uploadPdf`) from the API client module;
* the HTTP client wrapper `apiRequest` with its typed `ApiError`;
* the upload validation in `uploadPdf`;
* the App component's reconciliation handlers (`handleJobUpdate` for the
  push/SSE path and the fallback-polling interval body), with network
  fetches represented by their outcomes passed as arguments;
* the capped poller `pollJobStatus`;
* the SSE reconnect logic of `useJobEvents`.

JavaScript objects are embedded as association lists of string-keyed
`JsVal` values (`JsObj`), so that shallow merge (object spread) and
field-frame properties can be stated faithfully.  Timestamps (`createdAt`,
`updatedAt`), stored as ISO-8601 strings by the code and compared through
`new Date`, are embedded as integer milliseconds, which `Date` comparison
is order-isomorphic to.  `localStorage` is embedded as a `Store`: an
association list of job records keyed by job id (the `job_<id>` entries)
plus the `pdf_csv_jobs` index list.  A record that is missing or
unparseable is embedded as an absent entry, matching `getStoredJob`, which
returns `null` in both cases.
-/

/-- A JavaScript (JSON) value, as far as the job records need:
strings, booleans, integers (timestamps) and null.  Nested objects
(execution metadata) occur only as opaque stored values, which `str`
can stand in for. -/
inductive JsVal where
  | str (s : String)
  | boolean (b : Bool)
  | int (n : Int)
  | null
deriving DecidableEq, Repr

/-- A JavaScript object: an association list from field names to values,
first occurrence of a key authoritative (JS objects have unique keys). -/
abbrev JsObj := List (String × JsVal)

/-- Look up a key in an association list (first occurrence). -/
def assocGet {α : Type} : List (String × α) → String → Option α
  | [], _ => none
  | (k0, v0) :: rest, k => if k = k0 then some v0 else assocGet rest k

/-- Set a key in an association list: overwrite the first occurrence in
place (JS assignment keeps the key's position), append when absent. -/
def assocSet {α : Type} : List (String × α) → String → α → List (String × α)
  | [], k, v => [(k, v)]
  | (k0, v0) :: rest, k, v =>
    if k0 = k then (k0, v) :: rest else (k0, v0) :: assocSet rest k v

/-- Delete every entry of a key from an association list
(`localStorage.removeItem`). -/
def assocRemove {α : Type} : List (String × α) → String → List (String × α)
  | [], _ => []
  | (k0, v0) :: rest, k =>
    if k0 = k then assocRemove rest k else (k0, v0) :: assocRemove rest k

/-- JS object spread `\x7b...a, ...b\x7d`: every field of `b` written over `a`,
left to right. -/
def objMerge (a b : JsObj) : JsObj :=
  b.foldl (fun acc p => assocSet acc p.1 p.2) a

theorem assocGet_set {α : Type} (l : List (String × α)) (k k' : String) (v : α) :
    assocGet (assocSet l k v) k' = if k' = k then some v else assocGet l k' := by
  induction l with
  | nil => by_cases h : k' = k <;> simp [assocSet, assocGet, h]
  | cons p rest ih =>
    obtain ⟨k0, v0⟩ := p
    by_cases h0 : k0 = k
    · subst h0
      by_cases h : k' = k0 <;> simp [assocSet, assocGet, h]
    · by_cases h : k' = k0
      · have hk : ¬ k' = k := fun he => h0 (h.symm.trans he)
        simp [assocSet, assocGet, h0, h, hk]
      · simp [assocSet, assocGet, h0, h, ih]

theorem assocGet_remove {α : Type} (l : List (String × α)) (k k' : String) :
    assocGet (assocRemove l k) k' = if k' = k then none else assocGet l k' := by
  induction l with
  | nil => simp [assocRemove, assocGet]
  | cons p rest ih =>
    obtain ⟨k0, v0⟩ := p
    by_cases h0 : k0 = k
    · subst h0
      by_cases h : k' = k0
      · subst h; simp [assocRemove, assocGet, ih]
      · simp [assocRemove, assocGet, h, ih]
    · by_cases h : k' = k0
      · have hk : ¬ k' = k := fun he => h0 (h.symm.trans he)
        simp [assocRemove, assocGet, h0, h, hk]
      · simp [assocRemove, assocGet, h0, h, ih]

theorem assocGet_eq_none_of_not_mem {α : Type} (l : List (String × α))
    (k : String) (hk : k ∉ l.map Prod.fst) : assocGet l k = none := by
  induction l with
  | nil => simp [assocGet]
  | cons p rest ih =>
    obtain ⟨k0, v0⟩ := p
    simp only [List.map_cons, List.mem_cons, not_or] at hk
    simp [assocGet, hk.1, ih hk.2]

/-- Merged-object lookup: a field of the spread `\x7b...a, ...b\x7d` comes from
`b` when `b` names it, else from `a`.  `b`'s keys are distinct, as the
fields of a JS object literal are. -/
theorem assocGet_merge (a b : JsObj) (k : String)
    (hb : (b.map Prod.fst).Nodup) :
    assocGet (objMerge a b) k =
      match assocGet b k with
      | some v => some v
      | none => assocGet a k := by
  induction b generalizing a with
  | nil => simp [objMerge, assocGet]
  | cons p rest ih =>
    obtain ⟨k0, v0⟩ := p
    simp only [List.map_cons, List.nodup_cons] at hb
    have step : objMerge a ((k0, v0) :: rest) = objMerge (assocSet a k0 v0) rest := by
      simp [objMerge, List.foldl]
    rw [step, ih _ hb.2]
    by_cases h : k = k0
    · subst h
      have hrest : assocGet rest k = none :=
        assocGet_eq_none_of_not_mem rest k hb.1
      simp [hrest, assocGet, assocGet_set]
    · simp only [assocGet, if_neg h]
      cases hr : assocGet rest k <;> simp [assocGet_set, h]

/-! ## The Local Job Store (localStorage-backed, from the API client module) -/

/-- The slice of `localStorage` the job-tracking code uses: the per-job
entries `job_<jobId>` (keyed here by the job id) and the
`pdf_csv_jobs` index list. -/
structure Store where
  records : List (String × JsObj)
  index : List String
deriving DecidableEq, Repr

/-- `getStoredJob(jobId)`: `JSON.parse(localStorage.getItem('job_' + id))`,
`null` (here `none`) when the entry is missing or unparseable. -/
def getStoredJob (s : Store) (jobId : String) : Option JsObj :=
  assocGet s.records jobId

/-- `localStorage.setItem('job_' + id, JSON.stringify(record))`. -/
def Store.putRecord (s : Store) (jobId : String) (r : JsObj) : Store :=
  { s with records := assocSet s.records jobId r }

/-- `localStorage.removeItem('job_' + id)`. -/
def Store.removeRecord (s : Store) (jobId : String) : Store :=
  { s with records := assocRemove s.records jobId }

/-- `updateStoredJob(jobId, updates)`: read the current record (or `\x7b\x7d`
when absent), shallow-merge `updates` over it, stamp `updatedAt` with the
current time, write it back. -/
def updateStoredJob (s : Store) (jobId : String) (updates : JsObj)
    (now : Int) : Store :=
  let existing := (getStoredJob s jobId).getD []
  let updated := assocSet (objMerge existing updates) "updatedAt" (.int now)
  s.putRecord jobId updated

/-- `getAllStoredJobs()`: map the index over `getStoredJob` and drop the
missing ones (`.filter(Boolean)`). -/
def getAllStoredJobs (s : Store) : List JsObj :=
  s.index.filterMap (getStoredJob s)

/-- The per-id keep decision of `cleanupStoredJobs`: the record exists and
`new Date(job.createdAt) > cutoff`.  A missing or non-timestamp
`createdAt` compares as an Invalid Date, i.e. `false`. -/
def keepAlive (s : Store) (cutoff : Int) (jobId : String) : Bool :=
  match getStoredJob s jobId with
  | some job =>
    match assocGet job "createdAt" with
    | some (.int t) => decide (cutoff < t)
    | _ => false
  | none => false

/-- One iteration of the `jobList.forEach` loop in `cleanupStoredJobs`:
keep the id (append to `activeJobs`) when its record is fresh enough,
otherwise remove the record from storage. -/
def cleanupStep (cutoff : Int) (acc : Store × List String) (jobId : String) :
    Store × List String :=
  if keepAlive acc.1 cutoff jobId then
    (acc.1, acc.2 ++ [jobId])
  else
    (acc.1.removeRecord jobId, acc.2)

/-- `cleanupStoredJobs(maxAge)`: sweep every indexed job whose `createdAt`
is not newer than `Date.now() - maxAge` out of storage, then rewrite the
index with the surviving ids. -/
def cleanupStoredJobs (s : Store) (maxAge now : Int) : Store :=
  let cutoff := now - maxAge
  let result := s.index.foldl (cleanupStep cutoff) (s, [])
  { result.1 with index := result.2 }

theorem getStoredJob_putRecord (s : Store) (jid jid' : String) (r : JsObj) :
    getStoredJob (s.putRecord jid r) jid' =
      if jid' = jid then some r else getStoredJob s jid' := by
  simp [getStoredJob, Store.putRecord, assocGet_set]

theorem getStoredJob_removeRecord (s : Store) (jid jid' : String) :
    getStoredJob (s.removeRecord jid) jid' =
      if jid' = jid then none else getStoredJob s jid' := by
  simp [getStoredJob, Store.removeRecord, assocGet_remove]

theorem getStoredJob_updateStoredJob (s : Store) (jid : String)
    (updates : JsObj) (now : Int) :
    getStoredJob (updateStoredJob s jid updates now) jid =
      some (assocSet (objMerge ((getStoredJob s jid).getD []) updates)
        "updatedAt" (.int now)) := by
  simp [updateStoredJob, getStoredJob_putRecord]

theorem getStoredJob_updateStoredJob_ne (s : Store) (jid jid' : String)
    (updates : JsObj) (now : Int) (h : jid' ≠ jid) :
    getStoredJob (updateStoredJob s jid updates now) jid' =
      getStoredJob s jid' := by
  simp [updateStoredJob, getStoredJob_putRecord, h]

/-- `keepAlive` only looks at the id's own record. -/
theorem keepAlive_congr (s s' : Store) (cutoff : Int) (j : String)
    (h : getStoredJob s j = getStoredJob s' j) :
    keepAlive s cutoff j = keepAlive s' cutoff j := by
  simp [keepAlive, h]

/-- The `forEach` loop of `cleanupStoredJobs`, characterized: with distinct
ids in the work list, the collected survivors are the kept ids in order and
the store afterwards has lost exactly the non-kept ids' records. -/
theorem cleanup_foldl (cutoff : Int) (s0 : Store) :
    ∀ (l : List String) (s : Store) (active : List String),
      l.Nodup →
      (∀ j ∈ l, getStoredJob s j = getStoredJob s0 j) →
      (l.foldl (cleanupStep cutoff) (s, active)).2 =
          active ++ l.filter (fun j => keepAlive s0 cutoff j) ∧
      ∀ j, getStoredJob (l.foldl (cleanupStep cutoff) (s, active)).1 j =
          if j ∈ l ∧ keepAlive s0 cutoff j = false then none
          else getStoredJob s j := by
  intro l
  induction l with
  | nil =>
    intro s active _ _
    simp
  | cons h t ih =>
    intro s active hnd hs
    simp only [List.nodup_cons] at hnd
    have hgh : getStoredJob s h = getStoredJob s0 h := hs h (by simp)
    have hkh : keepAlive s cutoff h = keepAlive s0 cutoff h :=
      keepAlive_congr s s0 cutoff h hgh
    by_cases kh : keepAlive s0 cutoff h = true
    · have step : (h :: t).foldl (cleanupStep cutoff) (s, active) =
          t.foldl (cleanupStep cutoff) (s, active ++ [h]) := by
        simp [List.foldl, cleanupStep, hkh, kh]
      obtain ⟨ih2, ih1⟩ :=
        ih s (active ++ [h]) hnd.2 (fun j hj => hs j (by simp [hj]))
      refine ⟨?_, ?_⟩
      · rw [step, ih2]
        simp [List.filter_cons, kh]
      · intro j
        rw [step, ih1 j]
        by_cases hjh : j = h
        · subst hjh
          simp [hnd.1, kh]
        · simp [hjh]
    · have kh' : keepAlive s0 cutoff h = false := by
        simpa using kh
      have step : (h :: t).foldl (cleanupStep cutoff) (s, active) =
          t.foldl (cleanupStep cutoff) (s.removeRecord h, active) := by
        simp [List.foldl, cleanupStep, hkh, kh']
      have hs' : ∀ j ∈ t,
          getStoredJob (s.removeRecord h) j = getStoredJob s0 j := by
        intro j hj
        have hjne : j ≠ h := fun he => hnd.1 (he ▸ hj)
        rw [getStoredJob_removeRecord, if_neg hjne]
        exact hs j (by simp [hj])
      obtain ⟨ih2, ih1⟩ := ih (s.removeRecord h) active hnd.2 hs'
      refine ⟨?_, ?_⟩
      · rw [step, ih2]
        simp [List.filter_cons, kh']
      · intro j
        rw [step, ih1 j]
        by_cases hjh : j = h
        · subst hjh
          simp [getStoredJob_removeRecord, hnd.1, kh']
        · rw [getStoredJob_removeRecord, if_neg hjh]
          simp [hjh]

/-- C6 (amended): `cleanupStoredJobs(maxAge)` keeps exactly the indexed
records whose `createdAt` is strictly newer than `now - maxAge` (the
`keepAlive` test), removing the others — including a record created
exactly `maxAge` ago — from both storage and the index; the index is
rewritten with the survivors in their original relative order; a swept id
is absent from storage and from the index and a surviving id keeps its
record unchanged, so `getAllStoredJobs` afterwards lists exactly the
surviving records in order. -/
theorem cleanupStoredJobs_sweep_spec (s : Store) (maxAge now : Int)
    (hnd : s.index.Nodup) :
    (cleanupStoredJobs s maxAge now).index =
        s.index.filter (fun j => keepAlive s (now - maxAge) j) ∧
    (∀ jid, getStoredJob (cleanupStoredJobs s maxAge now) jid =
        if jid ∈ s.index ∧ keepAlive s (now - maxAge) jid = false then none
        else getStoredJob s jid) ∧
    getAllStoredJobs (cleanupStoredJobs s maxAge now) =
        (s.index.filter (fun j => keepAlive s (now - maxAge) j)).filterMap
          (getStoredJob s) ∧
    (∀ jid ∈ s.index, keepAlive s (now - maxAge) jid = false →
        jid ∉ (cleanupStoredJobs s maxAge now).index ∧
        getStoredJob (cleanupStoredJobs s maxAge now) jid = none) ∧
    (∀ jid ∈ s.index, keepAlive s (now - maxAge) jid = true →
        jid ∈ (cleanupStoredJobs s maxAge now).index ∧
        getStoredJob (cleanupStoredJobs s maxAge now) jid =
          getStoredJob s jid) := by
  obtain ⟨h2, h1⟩ :=
    cleanup_foldl (now - maxAge) s s.index s [] hnd (fun _ _ => rfl)
  have hidx : (cleanupStoredJobs s maxAge now).index =
      s.index.filter (fun j => keepAlive s (now - maxAge) j) := by
    simpa [cleanupStoredJobs] using h2
  have hget : ∀ jid, getStoredJob (cleanupStoredJobs s maxAge now) jid =
      if jid ∈ s.index ∧ keepAlive s (now - maxAge) jid = false then none
      else getStoredJob s jid := by
    intro jid
    have : getStoredJob (cleanupStoredJobs s maxAge now) jid =
        getStoredJob
          (s.index.foldl (cleanupStep (now - maxAge)) (s, [])).1 jid := rfl
    rw [this, h1 jid]
  refine ⟨hidx, hget, ?_, ?_, ?_⟩
  · unfold getAllStoredJobs
    rw [hidx]
    refine List.filterMap_congr ?_
    intro j hj
    rw [List.mem_filter] at hj
    rw [hget j]
    simp [hj.2]
  · intro jid hmem hdead
    refine ⟨?_, ?_⟩
    · rw [hidx, List.mem_filter]
      simp [hdead]
    · rw [hget jid]
      simp [hmem, hdead]
  · intro jid hmem halive
    refine ⟨?_, ?_⟩
    · rw [hidx, List.mem_filter]
      exact ⟨hmem, halive⟩
    · rw [hget jid]
      simp [halive]

/-- A store holding one record created at time 0, for the sweep boundary. -/
def sweepBoundaryStore : Store :=
  ⟨[("j1", [("createdAt", .int 0)])], ["j1"]⟩

/-- C6 counterexample: a record whose `createdAt` equals `now - maxAge`
exactly — so it is NOT older than `now - maxAge` and the claim says it is
kept — is nevertheless swept: the code keeps a record only when
`new Date(job.createdAt) > cutoff` holds strictly. -/
theorem cleanupStoredJobs_boundary_cex :
    ¬ ((0 : Int) < 100 - 100) ∧
    getAllStoredJobs (cleanupStoredJobs sweepBoundaryStore 100 100) = [] ∧
    getStoredJob (cleanupStoredJobs sweepBoundaryStore 100 100) "j1" = none ∧
    "j1" ∉ (cleanupStoredJobs sweepBoundaryStore 100 100).index := by
  refine ⟨by decide, by decide, by decide, by decide⟩

/-- A two-job store: one record well past `maxAge`, one fresh. -/
def sweepWitnessStore : Store :=
  ⟨[("old", [("createdAt", JsVal.int 0)]),
    ("fresh", [("createdAt", JsVal.int 900)])], ["fresh", "old"]⟩

/-- Witness for `cleanupStoredJobs_sweep_spec` at a concrete store. -/
theorem cleanupStoredJobs_sweep_spec_witness :
    (cleanupStoredJobs sweepWitnessStore 500 1000).index =
        sweepWitnessStore.index.filter
          (fun j => keepAlive sweepWitnessStore (1000 - 500) j) ∧
    (∀ jid, getStoredJob (cleanupStoredJobs sweepWitnessStore 500 1000) jid =
        if jid ∈ sweepWitnessStore.index ∧
            keepAlive sweepWitnessStore (1000 - 500) jid = false then none
        else getStoredJob sweepWitnessStore jid) ∧
    getAllStoredJobs (cleanupStoredJobs sweepWitnessStore 500 1000) =
        (sweepWitnessStore.index.filter
          (fun j => keepAlive sweepWitnessStore (1000 - 500) j)).filterMap
          (getStoredJob sweepWitnessStore) ∧
    (∀ jid ∈ sweepWitnessStore.index,
        keepAlive sweepWitnessStore (1000 - 500) jid = false →
        jid ∉ (cleanupStoredJobs sweepWitnessStore 500 1000).index ∧
        getStoredJob (cleanupStoredJobs sweepWitnessStore 500 1000) jid =
          none) ∧
    (∀ jid ∈ sweepWitnessStore.index,
        keepAlive sweepWitnessStore (1000 - 500) jid = true →
        jid ∈ (cleanupStoredJobs sweepWitnessStore 500 1000).index ∧
        getStoredJob (cleanupStoredJobs sweepWitnessStore 500 1000) jid =
          getStoredJob sweepWitnessStore jid) :=
  cleanupStoredJobs_sweep_spec sweepWitnessStore 500 1000 (by decide)

/-- C7: updating a job id then reading it back yields a record where every
field named by the partial update has its new value, `updatedAt` is stamped
with the update time, and every other previously-set field is unchanged;
for an id with no stored record the merge happens over the empty object
(an update never fails). -/
theorem updateStoredJob_roundtrip_frame (s : Store) (jid : String)
    (updates : JsObj) (now : Int) (k : String)
    (hk : (updates.map Prod.fst).Nodup) :
    (getStoredJob (updateStoredJob s jid updates now) jid).isSome = true ∧
    assocGet ((getStoredJob (updateStoredJob s jid updates now) jid).getD []) k =
      (if k = "updatedAt" then some (.int now)
       else
         match assocGet updates k with
         | some v => some v
         | none => assocGet ((getStoredJob s jid).getD []) k) ∧
    (getStoredJob s jid = none →
      getStoredJob (updateStoredJob s jid updates now) jid =
        some (assocSet (objMerge [] updates) "updatedAt" (.int now))) := by
  have h1 := getStoredJob_updateStoredJob s jid updates now
  refine ⟨by rw [h1]; rfl, ?_, ?_⟩
  · rw [h1]
    simp only [Option.getD_some]
    rw [assocGet_set, assocGet_merge _ _ _ hk]
  · intro hnone
    rw [h1, hnone]
    rfl

/-- A one-record store for the C7 witness. -/
def frameWitnessStore : Store :=
  ⟨[("j1", [("jobId", JsVal.str "j1"), ("filename", JsVal.str "inv.pdf"),
    ("status", JsVal.str "processing")])], ["j1"]⟩

/-- Witness for `updateStoredJob_roundtrip_frame`: update `status` to
`done` and read the untouched `filename` back. -/
theorem updateStoredJob_roundtrip_frame_witness :
    (getStoredJob (updateStoredJob frameWitnessStore "j1"
        [("status", JsVal.str "done")] 7) "j1").isSome = true ∧
    assocGet ((getStoredJob (updateStoredJob frameWitnessStore "j1"
        [("status", JsVal.str "done")] 7) "j1").getD []) "filename" =
      (if "filename" = "updatedAt" then some (.int 7)
       else
         match assocGet [("status", JsVal.str "done")] "filename" with
         | some v => some v
         | none =>
           assocGet ((getStoredJob frameWitnessStore "j1").getD [])
             "filename") ∧
    (getStoredJob frameWitnessStore "j1" = none →
      getStoredJob (updateStoredJob frameWitnessStore "j1"
          [("status", JsVal.str "done")] 7) "j1" =
        some (assocSet (objMerge [] [("status", JsVal.str "done")])
          "updatedAt" (.int 7))) :=
  updateStoredJob_roundtrip_frame frameWitnessStore "j1"
    [("status", JsVal.str "done")] 7 "filename" (by decide)

/-! ## The HTTP client (`apiRequest` and `ApiError`) -/

/-- The typed error the API client throws: `message`, HTTP `status`
(0 when no response arrived) and machine-readable `code`. -/
structure ApiError where
  message : String
  status : Nat
  code : String
deriving DecidableEq, Repr

/-- JS `x || d` on an optional string: the default replaces both a missing
value and the empty string (both falsy). -/
def orFalsy (v : Option String) (d : String) : String :=
  match v with
  | some s => if s = "" then d else s
  | none => d

/-- The `error` object of a non-2xx JSON body:
`\x7b error: \x7b message, code \x7d \x7d`, each field possibly absent. -/
structure ErrBody where
  message : Option String
  code : Option String
deriving DecidableEq, Repr

/-- What `apiRequest` decodes a response body to: the parsed JSON (of
which only the `error` field matters downstream) or the raw text when the
`content-type` is not JSON. -/
inductive ApiData where
  | json (errField : Option ErrBody)
  | text (s : String)
deriving DecidableEq, Repr

/-- The outcome of `fetch`: a transport failure with no response (the
thrown error's message, possibly empty), or a response with its HTTP
status, whether the `content-type` header includes `application/json`,
the result of `response.json()` (`Except.error` when parsing throws, with
the parse error's message) and the text body. -/
inductive FetchOutcome where
  | failure (msg : Option String)
  | response (status : Nat) (ctJson : Bool)
      (jsonBody : Except String (Option ErrBody)) (textBody : String)
deriving Repr

/-- `apiRequest`: decode the body (JSON when the `content-type` says so,
text otherwise), then on `response.ok` return the data, on a non-2xx
status throw an `ApiError` built from the body's `error` object with
`HTTP_ERROR`/status-line fallbacks; any other exception — the transport
failure of `fetch` itself, or `response.json()` throwing on a malformed
body — is caught and rethrown as an `ApiError` with status 0 and code
`NETWORK_ERROR`. -/
def apiRequest : FetchOutcome → Except ApiError ApiData
  | .failure msg => .error ⟨orFalsy msg "Network error", 0, "NETWORK_ERROR"⟩
  | .response status ctJson jsonBody textBody =>
    match (if ctJson then jsonBody.map ApiData.json
           else .ok (.text textBody)) with
    | .error m => .error ⟨orFalsy (some m) "Network error", 0, "NETWORK_ERROR"⟩
    | .ok data =>
      if 200 ≤ status ∧ status ≤ 299 then
        .ok data
      else
        let eo : ErrBody :=
          match data with
          | .json (some e) => e
          | _ => ⟨none, none⟩
        .error ⟨orFalsy eo.message ("HTTP " ++ toString status), status,
          orFalsy eo.code "HTTP_ERROR"⟩

/-- C3 counterexample: a non-2xx response (HTTP 500, JSON content type)
whose body fails to parse is rethrown as status 0 / `NETWORK_ERROR`, not
as a typed error carrying status 500 — so a status of 0 does not always
mean the network was unreachable. -/
theorem apiRequest_malformed_body_cex :
    apiRequest (.response 500 true (.error "Unexpected token") "") =
      .error ⟨"Unexpected token", 0, "NETWORK_ERROR"⟩ ∧
    (500 : Nat) ≠ 0 := by
  exact ⟨rfl, by decide⟩

/-- C3 (amended): a 2xx response with a decodable body yields the decoded
body; a non-2xx response with a decodable body raises an `ApiError` whose
status is the HTTP status, whose code is the server's or `HTTP_ERROR` and
whose message is the server's or the `HTTP <status>` fallback (empty
server strings falling back too); a transport failure raises status 0 /
`NETWORK_ERROR`; and a JSON-content-type response whose body fails to
parse — whatever its HTTP status — also raises status 0 /
`NETWORK_ERROR`, so status 0 means network-unreachable or undecodable
body, not only network-unreachable. -/
theorem apiRequest_error_taxonomy (msg : Option String) (status : Nat)
    (eo : Option ErrBody) (jsonBody : Except String (Option ErrBody))
    (tb m : String) :
    (apiRequest (.failure msg) =
        .error ⟨orFalsy msg "Network error", 0, "NETWORK_ERROR"⟩) ∧
    (200 ≤ status → status ≤ 299 →
        apiRequest (.response status true (.ok eo) tb) = .ok (.json eo)) ∧
    (200 ≤ status → status ≤ 299 →
        apiRequest (.response status false jsonBody tb) = .ok (.text tb)) ∧
    (¬ (200 ≤ status ∧ status ≤ 299) →
        apiRequest (.response status true (.ok eo) tb) =
          .error ⟨orFalsy (eo.getD ⟨none, none⟩).message
              ("HTTP " ++ toString status), status,
            orFalsy (eo.getD ⟨none, none⟩).code "HTTP_ERROR"⟩) ∧
    (¬ (200 ≤ status ∧ status ≤ 299) →
        apiRequest (.response status false jsonBody tb) =
          .error ⟨"HTTP " ++ toString status, status, "HTTP_ERROR"⟩) ∧
    (apiRequest (.response status true (.error m) tb) =
        .error ⟨orFalsy (some m) "Network error", 0, "NETWORK_ERROR"⟩) := by
  refine ⟨rfl, ?_, ?_, ?_, ?_, ?_⟩
  · intro h1 h2
    simp [apiRequest, Except.map, h1, h2]
  · intro h1 h2
    simp [apiRequest, h1, h2]
  · intro h
    cases eo with
    | none => simp [apiRequest, Except.map, h, orFalsy]
    | some e => simp [apiRequest, Except.map, h, orFalsy]
  · intro h
    simp [apiRequest, h, orFalsy]
  · simp [apiRequest, Except.map]

/-- Witness for `apiRequest_error_taxonomy`: a 404 with a server-supplied
error body becomes a typed error carrying 404 and the server's code. -/
theorem apiRequest_error_taxonomy_witness :
    apiRequest (.response 404 true
        (.ok (some ⟨some "job not found", some "NOT_FOUND"⟩)) "") =
      .error ⟨"job not found", 404, "NOT_FOUND"⟩ := by
  have h := (apiRequest_error_taxonomy none 404
      (some ⟨some "job not found", some "NOT_FOUND"⟩) (.ok none) "" "").2.2.2.1
    (by decide)
  simpa [orFalsy] using h

/-! ## Upload: validation and the Local Job Store effect (`uploadPdf`) -/

/-- The parts of a browser `File` that `uploadPdf` inspects. -/
structure JsFile where
  name : String
  type : String
  size : Nat
deriving DecidableEq, Repr

/-- The body of a successful `POST /api/jobs` response as `uploadPdf`
consumes it.  `execution` is `response.execution`, absent when the server
sent none. -/
structure UploadResponse where
  jobId : Option String
  filename : String
  execution : Option JsVal
deriving DecidableEq, Repr

/-- The localStorage block of `uploadPdf` run after a response arrives:
when the response carries a job id, write a fresh `processing` record for
it; then, only when the id is not yet in the `pdf_csv_jobs` list, unshift
it, and when that makes the list longer than 10, pop the last id and
delete its record; finally write the list back. -/
def uploadPdfStore (store : Store) (resp : UploadResponse) (now : Int) :
    Store :=
  match resp.jobId with
  | none => store
  | some jid =>
    let jobData : JsObj :=
      [("jobId", .str jid), ("filename", .str resp.filename),
       ("status", .str "processing"), ("createdAt", .int now),
       ("execution", resp.execution.getD .null)]
    let s1 := store.putRecord jid jobData
    if jid ∈ store.index then s1
    else
      let jobList := jid :: store.index
      if jobList.length > 10 then
        match jobList.getLast? with
        | some removed =>
          { records := assocRemove s1.records removed,
            index := jobList.dropLast }
        | none => { s1 with index := jobList }
      else { s1 with index := jobList }

/-- `uploadPdf(file)` up to the response: validation first — no file,
non-PDF MIME type, size over 20 MiB, each its own `ApiError`, thrown
before `fetch` runs — then the network call (its outcome `net`), then the
localStorage block.  The returned `Bool` records whether the network call
was made. -/
def uploadPdf (file? : Option JsFile)
    (net : Except ApiError UploadResponse) (store : Store) (now : Int) :
    Except ApiError UploadResponse × Store × Bool :=
  match file? with
  | none => (.error ⟨"No file provided", 400, "NO_FILE"⟩, store, false)
  | some f =>
    if f.type ≠ "application/pdf" then
      (.error ⟨"Only PDF files are allowed", 400, "INVALID_FILE_TYPE"⟩,
        store, false)
    else if f.size > 20 * 1024 * 1024 then
      (.error ⟨"File too large (max 20MB)", 400, "FILE_TOO_LARGE"⟩,
        store, false)
    else
      match net with
      | .error e => (.error e, store, true)
      | .ok resp => (.ok resp, uploadPdfStore store resp now, true)

/-- C4: upload validation runs before any network call, each failure with
its own error code — `NO_FILE` for a missing file, `INVALID_FILE_TYPE`
for a non-PDF MIME type, `FILE_TOO_LARGE` for a file over 20 MiB (so a
25 MB PDF is rejected with `FILE_TOO_LARGE` and no request is sent) — and
a file passing all three checks proceeds to the network call. -/
theorem uploadPdf_validation (f : JsFile)
    (net : Except ApiError UploadResponse) (store : Store) (now : Int) :
    (uploadPdf none net store now =
        (.error ⟨"No file provided", 400, "NO_FILE"⟩, store, false)) ∧
    (f.type ≠ "application/pdf" →
        uploadPdf (some f) net store now =
          (.error ⟨"Only PDF files are allowed", 400, "INVALID_FILE_TYPE"⟩,
            store, false)) ∧
    (f.type = "application/pdf" → f.size > 20 * 1024 * 1024 →
        uploadPdf (some f) net store now =
          (.error ⟨"File too large (max 20MB)", 400, "FILE_TOO_LARGE"⟩,
            store, false)) ∧
    (f.type = "application/pdf" → f.size ≤ 20 * 1024 * 1024 →
        (uploadPdf (some f) net store now).2.2 = true) := by
  refine ⟨rfl, ?_, ?_, ?_⟩
  · intro h
    simp [uploadPdf, h]
  · intro h1 h2
    simp [uploadPdf, h1, h2]
  · intro h1 h2
    have h3 : ¬ f.size > 20 * 1024 * 1024 := by omega
    cases net <;> simp [uploadPdf, h1, h3]

/-- Witness for `uploadPdf_validation`: a 25 MB PDF (25 · 2^20 bytes) is
rejected with `FILE_TOO_LARGE` and the network flag stays `false`. -/
theorem uploadPdf_validation_witness :
    uploadPdf (some ⟨"big.pdf", "application/pdf", 25 * 1024 * 1024⟩)
        (.ok ⟨some "j1", "big.pdf", none⟩) ⟨[], []⟩ 0 =
      (.error ⟨"File too large (max 20MB)", 400, "FILE_TOO_LARGE"⟩,
        (⟨[], []⟩ : Store), false) :=
  (uploadPdf_validation ⟨"big.pdf", "application/pdf", 25 * 1024 * 1024⟩
      (.ok ⟨some "j1", "big.pdf", none⟩) ⟨[], []⟩ 0).2.2.1
    rfl (by norm_num)

/-- The fresh `processing` record `uploadPdf` writes for a job id. -/
def uploadJobData (jid : String) (resp : UploadResponse) (now : Int) :
    JsObj :=
  [("jobId", .str jid), ("filename", .str resp.filename),
   ("status", .str "processing"), ("createdAt", .int now),
   ("execution", resp.execution.getD .null)]

/-- C2 (amended): starting from a well-formed store (index of at most 10
distinct ids, each with a record), an upload returning job id `jid`
stores a fresh record for `jid` and: if `jid` is new and the index was
below capacity it is unshifted to the front; if `jid` is new and the
index held 10 ids, it is unshifted and exactly the oldest (last) id is
evicted, its record deleted, the other ids keeping their relative
recency order; but if `jid` is already present the index is left
completely unchanged — the id is NOT moved to the front (only its record
is overwritten).  In each case the index stays at ≤ 10 ids and every
indexed id keeps a corresponding record. -/
theorem uploadPdfStore_index_spec (store : Store) (resp : UploadResponse)
    (jid : String) (now : Int)
    (hj : resp.jobId = some jid)
    (hlen : store.index.length ≤ 10)
    (hnd : store.index.Nodup)
    (hinv : ∀ i ∈ store.index, (getStoredJob store i).isSome = true) :
    (jid ∉ store.index → store.index.length < 10 →
        (uploadPdfStore store resp now).index = jid :: store.index) ∧
    (jid ∉ store.index → store.index.length = 10 →
        (uploadPdfStore store resp now).index =
          jid :: store.index.dropLast ∧
        (∀ old, store.index.getLast? = some old →
          getStoredJob (uploadPdfStore store resp now) old = none)) ∧
    (jid ∈ store.index →
        (uploadPdfStore store resp now).index = store.index) ∧
    (uploadPdfStore store resp now).index.length ≤ 10 ∧
    getStoredJob (uploadPdfStore store resp now) jid =
      some (uploadJobData jid resp now) ∧
    (∀ i ∈ (uploadPdfStore store resp now).index,
        (getStoredJob (uploadPdfStore store resp now) i).isSome = true) := by
  by_cases hmem : jid ∈ store.index
  · have hs' : uploadPdfStore store resp now =
        store.putRecord jid (uploadJobData jid resp now) := by
      simp [uploadPdfStore, hj, hmem, uploadJobData]
    refine ⟨fun h => absurd hmem h, fun h => absurd hmem h,
      fun _ => by rw [hs']; rfl, ?_, ?_, ?_⟩
    · rw [hs']
      exact hlen
    · rw [hs', getStoredJob_putRecord]
      simp
    · intro i hi
      rw [hs'] at hi ⊢
      rw [getStoredJob_putRecord]
      by_cases hij : i = jid
      · simp [hij]
      · simp only [if_neg hij]
        exact hinv i hi
  · by_cases hfull : store.index.length = 10
    · have hne : store.index ≠ [] := by
        intro h
        rw [h] at hfull
        exact absurd hfull (by decide)
      have hlast := List.getLast?_eq_getLast_of_ne_nil hne
      have hcat := List.dropLast_append_getLast hne
      have holdmem : store.index.getLast hne ∈ store.index :=
        List.getLast_mem hne
      have hjidold : jid ≠ store.index.getLast hne :=
        fun he => hmem (he ▸ holdmem)
      have holdnotdrop : store.index.getLast hne ∉ store.index.dropLast := by
        have h2 := hnd
        rw [← hcat, List.nodup_append] at h2
        intro hm
        exact h2.2.2 hm (by simp)
      have hs' : uploadPdfStore store resp now =
          ⟨assocRemove (assocSet store.records jid
              (uploadJobData jid resp now)) (store.index.getLast hne),
            jid :: store.index.dropLast⟩ := by
        simp only [uploadPdfStore, hj]
        rw [if_neg hmem]
        have hlength : (jid :: store.index).length > 10 := by
          simp [hfull]
        rw [if_pos hlength]
        have hlast2 : (jid :: store.index).getLast? =
            some (store.index.getLast hne) := by
          conv_lhs => rw [← hcat]
          rw [← List.cons_append, List.getLast?_concat]
        rw [hlast2]
        have hdrop : (jid :: store.index).dropLast =
            jid :: store.index.dropLast := by
          conv_lhs => rw [← hcat, ← List.cons_append, List.dropLast_concat]
        rw [hdrop]
        rfl
      have hget : ∀ i, getStoredJob (uploadPdfStore store resp now) i =
          if i = store.index.getLast hne then none
          else if i = jid then some (uploadJobData jid resp now)
          else getStoredJob store i := by
        intro i
        rw [hs']
        show assocGet (assocRemove (assocSet store.records jid
            (uploadJobData jid resp now)) (store.index.getLast hne)) i = _
        rw [assocGet_remove, assocGet_set]
        rfl
      refine ⟨fun _ h => absurd hfull (by omega), ?_, fun h => absurd h hmem,
        ?_, ?_, ?_⟩
      · intro _ _
        refine ⟨by rw [hs'], ?_⟩
        intro old hold
        have : old = store.index.getLast hne := by
          rw [hlast] at hold
          exact Option.some_injective _ hold.symm
        rw [hget old, if_pos this]
      · rw [hs']
        have : store.index.dropLast.length = 9 := by
          have := List.length_dropLast store.index
          omega
        simp [this]
      · rw [hget jid, if_neg hjidold]
        simp
      · intro i hi
        rw [hs'] at hi
        simp only [List.mem_cons] at hi
        rw [hget i]
        rcases hi with hi | hi
        · rw [if_neg (hi ▸ hjidold), if_pos hi]
          simp
        · have hio : i ≠ store.index.getLast hne :=
            fun he => holdnotdrop (he ▸ hi)
          rw [if_neg hio]
          by_cases hij : i = jid
          · simp [hij]
          · rw [if_neg hij]
            exact hinv i ((List.dropLast_sublist store.index).subset hi)
    · have hlt : store.index.length < 10 := by omega
      have hs' : uploadPdfStore store resp now =
          { store.putRecord jid (uploadJobData jid resp now) with
            index := jid :: store.index } := by
        simp only [uploadPdfStore, hj]
        rw [if_neg hmem]
        have hlength : ¬ (jid :: store.index).length > 10 := by
          simp only [List.length_cons]
          omega
        rw [if_neg hlength]
        rfl
      refine ⟨fun _ _ => by rw [hs'], fun _ h => absurd h hfull,
        fun h => absurd h hmem, ?_, ?_, ?_⟩
      · rw [hs']
        simp only [List.length_cons]
        omega
      · rw [hs']
        show getStoredJob (store.putRecord jid (uploadJobData jid resp now))
          jid = _
        rw [getStoredJob_putRecord]
        simp
      · intro i hi
        rw [hs'] at hi
        simp only [List.mem_cons] at hi
        rw [hs']
        show (getStoredJob (store.putRecord jid
          (uploadJobData jid resp now)) i).isSome = true
        rw [getStoredJob_putRecord]
        rcases hi with hi | hi
        · simp [hi]
        · by_cases hij : i = jid
          · simp [hij]
          · rw [if_neg hij]
            exact hinv i hi

/-- A well-formed two-job store, `a` most recent then `b`. -/
def twoJobStore : Store :=
  ⟨[("a", [("jobId", JsVal.str "a")]), ("b", [("jobId", JsVal.str "b")])],
    ["a", "b"]⟩

/-- C2 counterexample: uploading a file whose response re-issues the job
id `b`, already present in the index, leaves the index as `[a, b]` — the
id is NOT de-duplicated-and-moved to index 0, because the code only
touches the index when the id is absent. -/
theorem uploadPdfStore_no_move_to_front_cex :
    (uploadPdfStore twoJobStore ⟨some "b", "inv.pdf", none⟩ 0).index =
      ["a", "b"] ∧
    (uploadPdfStore twoJobStore ⟨some "b", "inv.pdf", none⟩ 0).index.head? ≠
      some "b" := by
  refine ⟨by decide, by decide⟩

/-- Witness for `uploadPdfStore_index_spec`: a fresh id `c` arriving at
the two-job store. -/
theorem uploadPdfStore_index_spec_witness :
    ("c" ∉ twoJobStore.index → twoJobStore.index.length < 10 →
        (uploadPdfStore twoJobStore ⟨some "c", "inv.pdf", none⟩ 5).index =
          "c" :: twoJobStore.index) ∧
    ("c" ∉ twoJobStore.index → twoJobStore.index.length = 10 →
        (uploadPdfStore twoJobStore ⟨some "c", "inv.pdf", none⟩ 5).index =
          "c" :: twoJobStore.index.dropLast ∧
        (∀ old, twoJobStore.index.getLast? = some old →
          getStoredJob
            (uploadPdfStore twoJobStore ⟨some "c", "inv.pdf", none⟩ 5)
            old = none)) ∧
    ("c" ∈ twoJobStore.index →
        (uploadPdfStore twoJobStore ⟨some "c", "inv.pdf", none⟩ 5).index =
          twoJobStore.index) ∧
    (uploadPdfStore twoJobStore
      ⟨some "c", "inv.pdf", none⟩ 5).index.length ≤ 10 ∧
    getStoredJob (uploadPdfStore twoJobStore ⟨some "c", "inv.pdf", none⟩ 5)
        "c" =
      some (uploadJobData "c" ⟨some "c", "inv.pdf", none⟩ 5) ∧
    (∀ i ∈ (uploadPdfStore twoJobStore ⟨some "c", "inv.pdf", none⟩ 5).index,
        (getStoredJob
          (uploadPdfStore twoJobStore ⟨some "c", "inv.pdf", none⟩ 5)
          i).isSome = true) :=
  uploadPdfStore_index_spec twoJobStore ⟨some "c", "inv.pdf", none⟩ "c" 5
    rfl (by decide) (by decide) (by decide)

/-! ## The App reconciliation controller (push handler + fallback poller) -/

/-- The App component's in-memory view of the active job: the React state
fields the reconciliation logic reads and writes. -/
structure AppState where
  jobId : Option String := none
  status : Option String := none
  filename : Option String := none
  error : Option String := none
  isUploading : Bool := false
  isPolling : Bool := false
  downloadUrl : Option String := none
  execution : JsVal := .null
deriving DecidableEq, Repr

/-- `resetState()`: clear every in-memory field back to the pre-upload
state. -/
def resetState : AppState := {}

/-- A parsed SSE message as `handleJobUpdate` consumes it:
`\x7b type, jobId, status, error?, downloadUrl? \x7d`. -/
structure PushMsg where
  type : String
  jobId : String
  status : String
  error : Option String := none
  downloadUrl : JsVal := .null
deriving DecidableEq, Repr

/-- A `GET /api/jobs/\x7bid\x7d/status` body as the pollers consume it. -/
structure JobStatusResp where
  status : String
  ready : Bool
  error : Option String := none
  downloadUrl : JsVal := .null
  execution : JsVal := .null
deriving DecidableEq, Repr

/-- `handleJobUpdate(data)` — the push path of the reconciliation
controller.  On a `completed` update it stops polling, resolves the
download URL (the `getAllFiles` lookup's outcome is passed in as
`fetchedUrl`) and persists `status:'done', ready:true`; on an `error`
update it stops polling, surfaces the error and persists
`status:'error'`; any other update only mirrors the status into UI
state.  Messages of other types are ignored. -/
def handleJobUpdate (ui : AppState) (store : Store) (data : PushMsg)
    (fetchedUrl : Option String) (now : Int) : AppState × Store :=
  if data.type = "update" then
    let ui1 := { ui with status := some data.status }
    if data.status = "completed" then
      ({ ui1 with isPolling := false, downloadUrl := fetchedUrl },
       updateStoredJob store data.jobId
         [("status", .str "done"), ("downloadUrl", data.downloadUrl),
          ("ready", .boolean true)] now)
    else if data.status = "error" then
      ({ ui1 with isPolling := false, error := data.error },
       updateStoredJob store data.jobId
         [("status", .str "error"),
          ("error", (data.error.map JsVal.str).getD .null)] now)
    else
      (ui1, store)
  else
    (ui, store)

/-- The message the 404 branch of the fallback poller surfaces. -/
def jobExpiredMsg : String :=
  "Job not found. It may have expired. Please upload again."

/-- One tick of the fallback-polling interval in the App component.  The
effect only runs while a job id is set, polling is armed and the UI
status is `processing`; the status request's outcome is `outcome`, and
`fetchedUrl` is the resolved download URL as in `handleJobUpdate`.  A
`ready ∧ done` response or an `error` response persists the terminal
state and disarms polling; a 404 failure disarms polling, purges the job
from storage and the index, resets the UI and surfaces `jobExpiredMsg`;
any other failure changes nothing (the interval keeps running). -/
def pollTick (ui : AppState) (store : Store)
    (outcome : Except ApiError JobStatusResp) (fetchedUrl : Option String)
    (now : Int) : AppState × Store :=
  match ui.jobId with
  | none => (ui, store)
  | some jid =>
    if ui.isPolling = true ∧ ui.status = some "processing" then
      match outcome with
      | .ok js =>
        if js.ready = true ∧ js.status = "done" then
          ({ ui with
              status := some "done"
              isPolling := false
              downloadUrl := fetchedUrl },
           updateStoredJob store jid
             [("status", .str "done"), ("downloadUrl", js.downloadUrl),
              ("ready", .boolean true)] now)
        else if js.status = "error" then
          let msg := orFalsy js.error "Job failed"
          ({ ui with
              status := some "error"
              isPolling := false
              error := some msg },
           updateStoredJob store jid
             [("status", .str "error"), ("error", .str msg)] now)
        else
          (ui, store)
      | .error e =>
        if e.status = 404 then
          ({ resetState with error := some jobExpiredMsg },
           ⟨assocRemove store.records jid,
            store.index.filter (fun i => i ≠ jid)⟩)
        else
          (ui, store)
    else
      (ui, store)

/-- An update event reaching the reconciliation controller from one of
its two sources: a push (SSE) message or a poll response. -/
inductive AppEvent where
  | push (data : PushMsg) (fetchedUrl : Option String)
  | poll (outcome : Except ApiError JobStatusResp)
      (fetchedUrl : Option String)

/-- Apply one update event to the App state and the store. -/
def applyEvent (now : Int) (st : AppState × Store) (e : AppEvent) :
    AppState × Store :=
  match e with
  | .push data fetchedUrl => handleJobUpdate st.1 st.2 data fetchedUrl now
  | .poll outcome fetchedUrl => pollTick st.1 st.2 outcome fetchedUrl now

/-- Apply a sequence of interleaved push/poll events in order. -/
def runEvents (now : Int) (st : AppState × Store) (evs : List AppEvent) :
    AppState × Store :=
  evs.foldl (applyEvent now) st

/-- The persisted status field of job `jid` after a run. -/
def storedStatus (st : AppState × Store) (jid : String) : Option JsVal :=
  assocGet ((getStoredJob st.2 jid).getD []) "status"

/-- Field-level view of `updateStoredJob`: the written-back record has the
update's value on every field it names, the fresh `updatedAt`, and the old
value elsewhere. -/
theorem assocGet_update_field (s : Store) (jid : String) (updates : JsObj)
    (now : Int) (k : String) (hk : (updates.map Prod.fst).Nodup) :
    assocGet ((getStoredJob (updateStoredJob s jid updates now) jid).getD [])
        k =
      if k = "updatedAt" then some (.int now)
      else
        match assocGet updates k with
        | some v => some v
        | none => assocGet ((getStoredJob s jid).getD []) k := by
  rw [getStoredJob_updateStoredJob]
  simp only [Option.getD_some]
  rw [assocGet_set, assocGet_merge _ _ _ hk]

/-- C10: a push message of type `update` with status `completed` persists
the record with the stored-vocabulary status `done` and `ready := true`;
a push message whose status is literally `done` matches neither the
`completed` nor the `error` branch, so it only mirrors the status into UI
state and persists nothing. -/
theorem handleJobUpdate_completed_vocabulary (ui : AppState) (store : Store)
    (data : PushMsg) (fetchedUrl : Option String) (now : Int) :
    (data.type = "update" → data.status = "completed" →
        storedStatus (handleJobUpdate ui store data fetchedUrl now)
            data.jobId = some (.str "done") ∧
        assocGet ((getStoredJob
            (handleJobUpdate ui store data fetchedUrl now).2
            data.jobId).getD []) "ready" = some (.boolean true)) ∧
    (data.type = "update" → data.status = "done" →
        handleJobUpdate ui store data fetchedUrl now =
          ({ ui with status := some data.status }, store)) := by
  constructor
  · intro h1 h2
    have hstep : (handleJobUpdate ui store data fetchedUrl now).2 =
        updateStoredJob store data.jobId
          [("status", .str "done"), ("downloadUrl", data.downloadUrl),
           ("ready", .boolean true)] now := by
      simp [handleJobUpdate, h1, h2]
    constructor
    · show assocGet ((getStoredJob
        (handleJobUpdate ui store data fetchedUrl now).2
        data.jobId).getD []) "status" = some (.str "done")
      rw [hstep, assocGet_update_field _ _ _ _ _
        (by show (["status", "downloadUrl", "ready"] : List String).Nodup
            decide)]
      simp [assocGet]
    · rw [hstep, assocGet_update_field _ _ _ _ _
        (by show (["status", "downloadUrl", "ready"] : List String).Nodup
            decide)]
      simp [assocGet]
  · intro h1 h2
    simp [handleJobUpdate, h1, h2]

/-- Witness for `handleJobUpdate_completed_vocabulary` at a concrete
`completed` message. -/
theorem handleJobUpdate_completed_vocabulary_witness :
    storedStatus (handleJobUpdate {} twoJobStore
        { type := "update", jobId := "a", status := "completed" } none 3)
        "a" = some (.str "done") ∧
    assocGet ((getStoredJob (handleJobUpdate {} twoJobStore
        { type := "update", jobId := "a", status := "completed" }
        none 3).2 "a").getD []) "ready" = some (.boolean true) :=
  (handleJobUpdate_completed_vocabulary {} twoJobStore
    { type := "update", jobId := "a", status := "completed" } none 3).1
    rfl rfl

/-- C5: a 404 on the active job's status poll (while polling is armed and
the job is `processing`) stops polling, purges the job's record and its
index entry, resets the UI to the pre-upload state and surfaces a single
error message mentioning expiration. -/
theorem pollTick_404_cleanup (ui : AppState) (store : Store) (e : ApiError)
    (fetchedUrl : Option String) (now : Int) (jid : String)
    (hjid : ui.jobId = some jid) (hpoll : ui.isPolling = true)
    (hproc : ui.status = some "processing") (h404 : e.status = 404) :
    pollTick ui store (.error e) fetchedUrl now =
      ({ resetState with error := some jobExpiredMsg },
       ⟨assocRemove store.records jid,
        store.index.filter (fun i => i ≠ jid)⟩) ∧
    (pollTick ui store (.error e) fetchedUrl now).1.isPolling = false ∧
    getStoredJob (pollTick ui store (.error e) fetchedUrl now).2 jid =
      none ∧
    jid ∉ (pollTick ui store (.error e) fetchedUrl now).2.index ∧
    (pollTick ui store (.error e) fetchedUrl now).1.error =
      some jobExpiredMsg ∧
    "expired".toList <:+: jobExpiredMsg.toList := by
  have hstep : pollTick ui store (.error e) fetchedUrl now =
      ({ resetState with error := some jobExpiredMsg },
       ⟨assocRemove store.records jid,
        store.index.filter (fun i => i ≠ jid)⟩) := by
    simp [pollTick, hjid, hpoll, hproc, h404]
  refine ⟨hstep, ?_, ?_, ?_, ?_, by decide⟩
  · rw [hstep]
    rfl
  · rw [hstep]
    show assocGet (assocRemove store.records jid) jid = none
    rw [assocGet_remove]
    simp
  · rw [hstep]
    simp
  · rw [hstep]

/-- An App state observing job `j1`, polling armed, status `processing`. -/
def pollingUi : AppState :=
  { jobId := some "j1", status := some "processing", isPolling := true }

/-- A store holding job `j1` in status `processing`. -/
def processingStore : Store :=
  ⟨[("j1", [("jobId", JsVal.str "j1"), ("status", JsVal.str "processing"),
    ("createdAt", JsVal.int 0)])], ["j1"]⟩

/-- The 404 `ApiError` as `apiRequest` raises it for a missing job. -/
def err404 : ApiError := ⟨"HTTP 404", 404, "HTTP_ERROR"⟩

/-- Witness for `pollTick_404_cleanup` at a concrete polling state. -/
theorem pollTick_404_cleanup_witness :
    pollTick pollingUi processingStore (.error err404) none 9 =
      ({ resetState with error := some jobExpiredMsg },
       ⟨assocRemove processingStore.records "j1",
        processingStore.index.filter (fun i => i ≠ "j1")⟩) ∧
    (pollTick pollingUi processingStore
      (.error err404) none 9).1.isPolling = false ∧
    getStoredJob (pollTick pollingUi processingStore
      (.error err404) none 9).2 "j1" = none ∧
    "j1" ∉ (pollTick pollingUi processingStore
      (.error err404) none 9).2.index ∧
    (pollTick pollingUi processingStore (.error err404) none 9).1.error =
      some jobExpiredMsg ∧
    "expired".toList <:+: jobExpiredMsg.toList :=
  pollTick_404_cleanup pollingUi processingStore err404 none 9 "j1"
    rfl rfl rfl rfl

/-- A poll response reporting the job failed. -/
def pollErrorResp : Except ApiError JobStatusResp :=
  .ok { status := "error", ready := false, error := some "bad scan" }

/-- A push message reporting the job completed. -/
def pushCompletedMsg : PushMsg :=
  { type := "update", jobId := "j1", status := "completed" }

/-- C1 demonstrated false on the code: a poll response drives job `j1` to
the terminal persisted status `error`, and a later push `completed`
message — which `handleJobUpdate` applies without any terminal-state
check — overwrites the persisted status with `done`.  The first terminal
write does not win: the claimed idempotent/commutative terminal-state
law fails. -/
theorem terminal_status_not_sticky_bug :
    storedStatus (runEvents 1 (pollingUi, processingStore)
        [.poll pollErrorResp none]) "j1" = some (.str "error") ∧
    storedStatus (runEvents 1 (pollingUi, processingStore)
        [.poll pollErrorResp none, .push pushCompletedMsg none]) "j1" =
      some (.str "done") := by
  exact ⟨by decide, by decide⟩

/-! ## The capped poller `pollJobStatus` -/

/-- `maxAttempts` of `pollJobStatus`: 150 polls at 2 s ≈ 5 minutes. -/
def pollMaxAttempts : Nat := 150

/-- `pollJobStatus`, one promise run: `attempts` counts the status calls
already made, `outcomes` supplies each remaining status request's result.
Every iteration first bumps the attempt count and rejects with
`POLLING_TIMEOUT` past the ceiling; then the status call happens: a
rejection (`.error`) rejects the whole run with that error — the catch
block does not continue the loop — while a response updates the stored
record and either resolves (ready, or status `error`) or schedules the
next iteration.  `none` stands for a run still pending when the supplied
outcomes end. -/
def pollJobStatusRun (jid : String)
    (outcomes : List (Except ApiError JobStatusResp)) (attempts : Nat)
    (store : Store) (now : Int) :
    Option (Except ApiError JobStatusResp) × Store :=
  if attempts + 1 > pollMaxAttempts then
    (some (.error ⟨"Job polling timeout", 408, "POLLING_TIMEOUT"⟩), store)
  else
    match outcomes with
    | [] => (none, store)
    | .error e :: _ => (some (.error e), store)
    | .ok js :: rest =>
      let store2 := updateStoredJob store jid
        [("status", .str js.status), ("ready", .boolean js.ready),
         ("execution", js.execution),
         ("error", (js.error.map JsVal.str).getD .null),
         ("downloadUrl", js.downloadUrl), ("updatedAt", .int now)] now
      if js.ready = true ∨ js.status = "error" then
        (some (.ok js), store2)
      else
        pollJobStatusRun jid rest (attempts + 1) store2 now

/-- The `ApiError` `apiRequest` raises on a transport failure. -/
def netErr : ApiError := ⟨"Network error", 0, "NETWORK_ERROR"⟩

/-- C9 counterexample: in `pollJobStatus` a single generic transient
failure (a status-0 network error on the very first attempt, far below
the 150-attempt ceiling) rejects the whole polling run with that error —
the loop stops instead of continuing to poll. -/
theorem pollJobStatus_stops_on_transient_cex :
    pollJobStatusRun "j1" [.error netErr] 0 ⟨[], []⟩ 0 =
      (some (.error netErr), (⟨[], []⟩ : Store)) ∧
    netErr.code ≠ "POLLING_TIMEOUT" ∧
    (0 : Nat) + 1 ≤ pollMaxAttempts := by
  exact ⟨rfl, by decide, by decide⟩

/-- C9 (amended): the reconciliation controller's fallback poller ignores
a generic (non-404) failure completely — state and store are untouched
and polling stays armed, with no attempt ceiling in that loop — whereas
the capped poller `pollJobStatus` rejects its run on the first failed
status request, surfacing that error, and surfaces `POLLING_TIMEOUT`
only when the 150-attempt ceiling is exceeded. -/
theorem polling_transient_failure_policy (ui : AppState) (store : Store)
    (e : ApiError) (fetchedUrl : Option String) (now : Int) (jid : String)
    (outcomes : List (Except ApiError JobStatusResp)) (attempts : Nat)
    (hjid : ui.jobId = some jid) (hpoll : ui.isPolling = true)
    (hproc : ui.status = some "processing") (hn404 : e.status ≠ 404) :
    pollTick ui store (.error e) fetchedUrl now = (ui, store) ∧
    (pollTick ui store (.error e) fetchedUrl now).1.isPolling = true ∧
    (attempts + 1 ≤ pollMaxAttempts →
        pollJobStatusRun jid (.error e :: outcomes) attempts store now =
          (some (.error e), store)) ∧
    (attempts + 1 > pollMaxAttempts →
        pollJobStatusRun jid outcomes attempts store now =
          (some (.error ⟨"Job polling timeout", 408, "POLLING_TIMEOUT"⟩),
            store)) := by
  have h1 : pollTick ui store (.error e) fetchedUrl now = (ui, store) := by
    simp [pollTick, hjid, hpoll, hproc, hn404]
  refine ⟨h1, by rw [h1]; exact hpoll, ?_, ?_⟩
  · intro hle
    rw [pollJobStatusRun.eq_def]
    rw [if_neg (by omega)]
  · intro hgt
    rw [pollJobStatusRun.eq_def]
    rw [if_pos hgt]

/-- Witness for `polling_transient_failure_policy` at a concrete polling
state and a transport error. -/
theorem polling_transient_failure_policy_witness :
    pollTick pollingUi processingStore (.error netErr) none 2 =
      (pollingUi, processingStore) ∧
    (pollTick pollingUi processingStore
      (.error netErr) none 2).1.isPolling = true ∧
    ((0 : Nat) + 1 ≤ pollMaxAttempts →
        pollJobStatusRun "j1" (.error netErr :: []) 0 processingStore 2 =
          (some (.error netErr), processingStore)) ∧
    ((0 : Nat) + 1 > pollMaxAttempts →
        pollJobStatusRun "j1" [] 0 processingStore 2 =
          (some (.error ⟨"Job polling timeout", 408, "POLLING_TIMEOUT"⟩),
            processingStore)) :=
  polling_transient_failure_policy pollingUi processingStore netErr none 2
    "j1" [] 0 rfl rfl rfl (by decide)


/-! ## The SSE listener's reconnect logic (`useJobEvents`) -/

/-- `maxRetries` of `useJobEvents`. -/
def maxRetries : Nat := 3

/-- The reconnect backoff base delay of `useJobEvents`, in ms. -/
def sseBaseDelayMs : Nat := 2000

/-- The `readyState` of an `EventSource`. -/
inductive ESReadyState where
  | connecting
  | opened
  | closed
deriving DecidableEq, Repr

/-- The live `EventSource` as the hook's handlers see it: its
`readyState`. -/
structure EventSourceConn where
  readyState : ESReadyState
deriving DecidableEq, Repr

/-- `eventSource.close()`: forces `readyState` to `CLOSED`. -/
def esClose (c : EventSourceConn) : EventSourceConn :=
  { c with readyState := .closed }

/-- The reconnect state the hook keeps per job id: the
`connectionAttempts` counter, whether a connection is currently open,
and the delay of a scheduled reconnect timer, if any. -/
structure SSEState where
  attempts : Nat := 0
  connected : Bool := false
  pendingDelay : Option Nat := none
deriving DecidableEq, Repr

/-- The `onopen` handler: reset the attempt counter to zero. -/
def sseOnOpen (s : SSEState) : SSEState :=
  { s with
      attempts := 0
      connected := true }

/-- `connectSSE`: bail out when the counter has reached `maxRetries`,
otherwise open a new `EventSource`. -/
def connectSSE (s : SSEState) : SSEState :=
  if maxRetries ≤ s.attempts then s
  else { s with connected := true }

/-- The `onerror` handler of `useJobEvents`, in source order: first
`eventSource.close()`, then the check
`eventSource.readyState === EventSource.CLOSED` deciding whether the
stream is fully terminated — but `close()` has just forced exactly that
state, so the guard reads the post-close state; only past it comes the
retry block (increment the counter while it is below `maxRetries` and
schedule `connectSSE` after `2000 * (connectionAttempts + 1)` ms). -/
def sseOnError (s : SSEState) (conn : EventSourceConn) :
    SSEState × EventSourceConn :=
  let conn1 := esClose conn
  let s1 := { s with connected := false }
  if conn1.readyState = .closed then
    (s1, conn1)
  else if s.attempts < maxRetries then
    ({ s1 with
        attempts := s.attempts + 1
        pendingDelay := some (sseBaseDelayMs * (s.attempts + 1)) }, conn1)
  else (s1, conn1)

/-- C8 is wrong on the code: because `onerror` calls
`eventSource.close()` before it checks `readyState === CLOSED`, and
`close()` forces exactly that state, the early-return guard passes on
every transport error — for every hook state and every connection the
handler only closes the connection, never increments the attempt
counter and never schedules a reconnect.  The backoff retry block
(documented in the source as "Retry connection after a delay" with
"Exponential backoff") is dead code, so the claimed reconnects with
delay base × attempt number never happen; at the concrete failing input
(first transport error, counter 0, stream still open) the handler just
closes the stream. -/
theorem sse_retry_dead_code_bug :
    (∀ (s : SSEState) (conn : EventSourceConn),
        sseOnError s conn = ({ s with connected := false }, esClose conn)) ∧
    sseOnError { attempts := 0, connected := true } ⟨.opened⟩ =
      ({ attempts := 0, connected := false, pendingDelay := none },
       ⟨.closed⟩) := by
  constructor
  · intro s conn
    simp [sseOnError, esClose]
  · rfl
